import Mathlib

/-!
Verification development for the sheriff security-patrol tool.

The Go sources are embedded shallowly: pure helpers become Lean functions,
effectful code becomes functions over explicit environment records that carry
the outcomes of the external collaborators (network clients, filesystem), and
the nondeterministic fan-in order of concurrent scans becomes an explicit
permutation parameter. Machine integers (Go int64 / time.Duration) are
modelled as Int with explicit twos-complement wrap-around where products or
shifts can overflow.
-/

namespace Sheriff

/-! ## Data model (internal/scanner/vulnscanner.go and collaborator records) -/

/-- SeverityScoreKind from scanner/vulnscanner.go lines 9-18. -/
inductive SeverityScoreKind where
  | critical
  | high
  | moderate
  | low
  | unknown
  | acknowledged
deriving DecidableEq, Repr

/-- Vulnerability from scanner/vulnscanner.go lines 33-46. -/
structure Vulnerability where
  id : String
  packageName : String
  packageVersion : String
  packageUrl : String
  packageEcosystem : String
  source : String
  severity : String
  severityScoreKind : SeverityScoreKind
  summary : String
  details : String
  fixAvailable : Bool
  ackReason : String
deriving DecidableEq, Repr

/-- Acknowledged entry of the project configuration (config package, not under
src/; its fields Code and Reason are visible from the loop in
patrol.go lines 357-360). -/
structure Acknowledgement where
  code : String
  reason : String
deriving DecidableEq, Repr

/-- ProjectConfig (config package, not under src/; the fields Acknowledged and
ReportToSlackChannel are visible from patrol.go and publish code). -/
structure ProjectConfig where
  acknowledged : List Acknowledgement
  reportToSlackChannel : String
deriving DecidableEq, Repr

/-- Project carrier. The source uses gogitlab.Project in patrol.go and
repository.Project in the github service; the fields below are the union of
the fields those call sites read. -/
structure Project where
  id : Int
  name : String
  nameWithNamespace : String
  path : String
  groupOrOwner : String
  webURL : String
  httpURLToRepo : String
deriving DecidableEq, Repr

/-- Report from scanner/vulnscanner.go lines 49-57. -/
structure Report where
  project : Project
  projectConfig : ProjectConfig
  isVulnerable : Bool
  vulnerabilities : List Vulnerability
  issueUrl : String
  error : Bool
  outdatedAcks : List String
deriving DecidableEq, Repr

/-- Zero value of ProjectConfig (Go zero-value semantics for struct fields). -/
def emptyProjectConfig : ProjectConfig := { acknowledged := [], reportToSlackChannel := "" }

/-- Zero value of Project. -/
def emptyProject : Project :=
  { id := 0, name := "", nameWithNamespace := "", path := "", groupOrOwner := "",
    webURL := "", httpURLToRepo := "" }

/-! ## Message splitting (publish slack code, splitMessage lines 437-453)

Go strings are indexed here as symbol sequences, modelled as List Char. -/

/-- Index of the last newline of a list, as computed by
strings.LastIndex(s, "\n"): none when no newline occurs. -/
def lastNewlineIdx : List Char → Option Nat
  | [] => none
  | c :: cs =>
    match lastNewlineIdx cs with
    | some i => some (i + 1)
    | none => if c = '\n' then some 0 else none

/-- Cut position of one iteration of splitMessage (lines 440-447): the
position after the last newline of the first maxLen symbols, or maxLen when
that window has no newline. -/
def splitIdx (s : List Char) (maxLen : Nat) : Nat :=
  match lastNewlineIdx (s.take maxLen) with
  | none => maxLen
  | some i => i + 1

/-- Loop of splitMessage (lines 439-450), with explicit fuel: each iteration
removes the current chunk from the front of s while s is longer than maxLen.
For maxLen at least 1 every iteration removes at least one symbol, so fuel
equal to the length of s always suffices (splitMessage_unfold below). -/
def splitMessageGo (fuel : Nat) (s : List Char) (maxLen : Nat) : List (List Char) :=
  match fuel with
  | 0 => [s]
  | fuel + 1 =>
    if maxLen < s.length then
      let idx := splitIdx s maxLen
      s.take idx :: splitMessageGo fuel (s.drop idx) maxLen
    else [s]

/-- splitMessage (publish slack code lines 437-453). -/
def splitMessage (s : List Char) (maxLen : Nat) : List (List Char) :=
  splitMessageGo s.length s maxLen

/-- Boundary condition of one chunk against the text remaining at its
iteration: when the first maxLen symbols of the remaining text contain a
newline the chunk ends right after the last such newline, otherwise the chunk
has length exactly maxLen. -/
def chunkBoundary (maxLen : Nat) (chunk rest : List Char) : Prop :=
  match lastNewlineIdx ((chunk ++ rest).take maxLen) with
  | some i => chunk.length = i + 1 ∧ chunk.getLast? = some '\n'
  | none => chunk.length = maxLen

/-! ## Retry executor (internal/slack/slack.go, runWithRetries lines 104-145)

Durations are Go time.Duration values: 64-bit signed integers counting
nanoseconds. Products and shifts wrap around in twos complement. -/

/-- Wrap-around of 64-bit signed (twos-complement) integer arithmetic, the
semantics of Go int64 and time.Duration operations. -/
def int64Wrap (x : Int) : Int := (x + 2 ^ 63) % 2 ^ 64 - 2 ^ 63

/-- Error shape observed by runWithRetries: errors.As(err, &rateLimitErr)
distinguishes errors that are (or wrap) a slack.RateLimitedError, which
carries a RetryAfter duration, from every other error. -/
inductive SlackOpError where
  | rateLimited (retryAfter : Int)
  | generic
deriving DecidableEq, Repr

/-- Sleep duration computed for a failed, non-final attempt
(slack.go lines 119-139): a rate-limit error with positive RetryAfter
overrides the backoff; otherwise backoff * (1 <<< (attempt - 1)) in wrapping
int64 arithmetic (the Go shift 1 <<< s on int equals int64Wrap (2 ^ s), also
for s of 63 and beyond). -/
def sleepDuration (backoff : Int) (attempt : Nat) (e : SlackOpError) : Int :=
  match e with
  | .rateLimited retryAfter =>
    if 0 < retryAfter then retryAfter
    else int64Wrap (backoff * int64Wrap (2 ^ (attempt - 1)))
  | .generic => int64Wrap (backoff * int64Wrap (2 ^ (attempt - 1)))

/-- Trace of one runWithRetries execution: the final result (a failure records
the message "operation failed after %d attempts" together with the wrapped
last underlying error), the number of invocations of the operation, and the
sleep durations between attempts in order. -/
structure RetryTrace (T : Type) where
  result : Except (Nat × SlackOpError) T
  calls : Nat
  sleeps : List Int
deriving Repr

/-- Loop of runWithRetries (lines 109-142). The operation is modelled as a
map from the invocation number (1-based) to the outcome of that invocation. The
first argument counts the attempts still allowed including the current one;
the wrapper always passes a positive count, so the zero case is unreachable.
Returns the last operation outcome, the number of invocations made and the
sleeps performed. -/
def retryGo {T : Type} (op : Nat → Except SlackOpError T) (backoff : Int) :
    Nat → Nat → Except SlackOpError T × Nat × List Int
  | 0, _ => (.error .generic, 0, [])
  | left + 1, attempt =>
    match op attempt with
    | .ok v => (.ok v, 1, [])
    | .error e =>
      if left = 0 then (.error e, 1, [])
      else
        let s := sleepDuration backoff attempt e
        let r := retryGo op backoff left (attempt + 1)
        (r.1, r.2.1 + 1, s :: r.2.2)

/-- Packaging of the loop outcome (slack.go lines 110-112 and 144): a success
is returned as is, a final failure is wrapped into the error stating the
attempt count m. -/
def finishRetry {T : Type} (m : Nat)
    (r : Except SlackOpError T × Nat × List Int) : RetryTrace T :=
  match r.1 with
  | .ok v => ⟨.ok v, r.2.1, r.2.2⟩
  | .error e => ⟨.error (m, e), r.2.1, r.2.2⟩

/-- runWithRetries (slack.go lines 104-145): maxAttempts of zero or below is
treated as 1 (lines 105-107); after the final failed attempt the returned
error states the attempt count and wraps the last underlying error
(line 144). -/
def runWithRetries {T : Type} (op : Nat → Except SlackOpError T)
    (maxAttempts : Int) (backoff : Int) : RetryTrace T :=
  let m : Nat := if maxAttempts ≤ 0 then 1 else maxAttempts.toNat
  finishRetry m (retryGo op backoff m 1)

/-! ## Slack channel lookup (internal/slack/slack.go, service lines 17-21 and
findSlackChannel lines 66-102) -/

/-- Channel entry returned by the Slack conversations listing. -/
structure SlackChannel where
  id : String
  name : String
deriving DecidableEq, Repr

/-- The slack service value (slack.go lines 17-21). Its fields are the
client, maxAttempts and initialBackoff; the client is modelled by the pages
its GetConversations endpoint serves in cursor order, the last page carrying
the empty next cursor. The struct has no field caching channel-name
resolutions. -/
structure SlackService where
  pages : List (List SlackChannel)
  maxAttempts : Int
  initialBackoff : Int
deriving Repr

/-- Loop of findSlackChannel (lines 71-101): fetch a page through
runWithRetries, search it for the channel name, stop when found or when the
next cursor is empty, otherwise continue with the next page. The second
component counts the GetConversations client calls performed. -/
def findSlackChannelLoop (svc : SlackService) (channelName : String) :
    List (List SlackChannel) → Option SlackChannel × Nat
  | [] => (none, 0)
  | page :: rest =>
    let t := runWithRetries (fun _ => Except.ok page) svc.maxAttempts svc.initialBackoff
    match page.find? (fun c => c.name = channelName) with
    | some c => (some c, t.calls)
    | none =>
      if rest.isEmpty then (none, t.calls)
      else
        let r := findSlackChannelLoop svc channelName rest
        (r.1, t.calls + r.2)

/-- findSlackChannel (slack.go lines 66-102) applied to the service value:
resolves a channel name against the pages of the client, counting the
GetConversations calls made. The resolution reads only the immutable service
value, so repeated resolutions on the same instance repeat the listing. -/
def findSlackChannel (svc : SlackService) (channelName : String) :
    Option SlackChannel × Nat :=
  findSlackChannelLoop svc channelName svc.pages

/-! ## Acknowledgement marking (internal/patrol/patrol.go lines 354-371) -/

/-- Membership in the ackCodes map built at patrol.go lines 355-360:
a Go map with bool values, so lookup succeeds exactly when some entry of
config.Acknowledged has the key as its Code. -/
def ackCodesMember (acks : List Acknowledgement) (k : String) : Bool :=
  acks.any (fun a => a.code = k)

/-- Lookup in the AckReasons map built at patrol.go lines 356-360: a Go map
written once per entry in list order, so the value found for a key is the
Reason of the last entry with that Code. -/
def ackReasonsLookup (acks : List Acknowledgement) (k : String) : Option String :=
  ((acks.filter (fun a => a.code = k)).getLast?).map (fun a => a.reason)

/-- markVulnsAsAcknowledgedInReport (patrol.go lines 354-371): for each
vulnerability whose Id is a key of the ackCodes map, override its
SeverityScoreKind to Acknowledged and, when the AckReasons map has the Id,
copy the reason. The source mutates the report in place; modelled as
returning the updated report. -/
def markVulnsAsAcknowledgedInReport (report : Report) (config : ProjectConfig) : Report :=
  { report with vulnerabilities := report.vulnerabilities.map fun v =>
      if ackCodesMember config.acknowledged v.id then
        let v1 : Vulnerability := { v with severityScoreKind := .acknowledged }
        match ackReasonsLookup config.acknowledged v.id with
        | some r => { v1 with ackReason := r }
        | none => v1
      else v }

/-- Reference form of acknowledgement marking written from the claim wording:
every vulnerability whose Id occurs among the codes of config.Acknowledged
has its kind set to Acknowledged and its AckReason set to the reason
configured for that code; every other vulnerability, the list shape and all
other report fields are unchanged. -/
def markVulnsAcknowledgedRef (report : Report) (config : ProjectConfig) : Report :=
  { report with vulnerabilities := report.vulnerabilities.map fun v =>
      match config.acknowledged.find? (fun a => a.code = v.id) with
      | some a => { v with severityScoreKind := .acknowledged, ackReason := a.reason }
      | none => v }

/-! ## Report generation and per-project scan
(internal/patrol/patrol.go scanProject lines 319-349; the osv scanner
implementation behind scanner.VulnScanner is not under src/) -/

/-- Severity-threshold table of scanner/vulnscanner.go lines 23-30
(SeverityScoreThresholds), listed in descending threshold order. -/
def severityScoreThresholds : List (SeverityScoreKind × ℚ) :=
  [(.critical, 9), (.high, 8), (.moderate, 3), (.low, 0), (.unknown, -1), (.acknowledged, -2)]

/-- Modelled from the spec: the classification step of the report builder
(spec 4.4 and 8) is inside the osv scanner implementation, which is not under
src/. The kind assigned is the first (highest) threshold of the table that
the numeric score meets; a score that cannot be parsed as a number is
modelled as none and gets Unknown. -/
def severityKindOfScore (score : Option ℚ) : SeverityScoreKind :=
  match score with
  | none => .unknown
  | some s =>
    match severityScoreThresholds.find? (fun kv => kv.2 ≤ s) with
    | some kv => kv.1
    | none => .unknown

/-- Modelled from the spec: a raw finding of the opaque scanner output
(scanner.OsvReport is not under src/). Spec sections 3 and 6 list the data a
finding carries; the numeric severity score is kept alongside the raw string
since some scores are non-numeric. -/
structure RawFinding where
  id : String
  packageName : String
  packageVersion : String
  packageUrl : String
  packageEcosystem : String
  source : String
  severity : String
  score : Option ℚ
  summary : String
  details : String
  fixAvailable : Bool
deriving DecidableEq, Repr

/-- Modelled from the spec: the per-finding mapping of the report builder
(spec 4.4), copying the finding data into a Vulnerability and assigning its
SeverityScoreKind from the threshold table. -/
def vulnerabilityOfFinding (f : RawFinding) : Vulnerability :=
  { id := f.id, packageName := f.packageName, packageVersion := f.packageVersion,
    packageUrl := f.packageUrl, packageEcosystem := f.packageEcosystem,
    source := f.source, severity := f.severity,
    severityScoreKind := severityKindOfScore f.score,
    summary := f.summary, details := f.details, fixAvailable := f.fixAvailable,
    ackReason := "" }

/-- Modelled from the spec: GenerateReport of the osv scanner (declared in
scanner/vulnscanner.go line 64, implementation not under src/). Per spec 4.4
it maps each raw finding into a Vulnerability with a score-derived kind and
computes IsVulnerable as "any vulnerability whose kind is not Acknowledged".
Its source signature receives only the project and the raw scanner output, so
the config-dependent parts of spec 4.4 (acknowledgement overrides and
OutdatedAcks) cannot be computed here; in src/ the acknowledgement override
is applied afterwards by markVulnsAsAcknowledgedInReport, and nothing
computes OutdatedAcks. -/
def GenerateReport (p : Project) (r : Option (List RawFinding)) : Report :=
  let vs := (r.getD []).map vulnerabilityOfFinding
  { project := p, projectConfig := emptyProjectConfig,
    isVulnerable := vs.any (fun v => v.severityScoreKind != SeverityScoreKind.acknowledged),
    vulnerabilities := vs, issueUrl := "", error := false, outdatedAcks := [] }

/-- Failure cause of one project scan task (scanProject exit paths at
patrol.go lines 320-324, 328-330 and 336-340). -/
inductive ScanFailure where
  | mkdirTemp
  | clone
  | scanner
deriving DecidableEq, Repr

/-- Environment of one scanProject call: outcomes of its external
collaborators (filesystem temp dir, git clone, project configuration load,
scanner run). -/
structure ScanEnv where
  mkdirTempOk : Bool
  cloneOk : Bool
  projectConfig : ProjectConfig
  scanResult : Except Unit (Option (List RawFinding))
deriving Repr

/-- scanProject (patrol.go lines 319-349): create the temp dir, clone, load
the project configuration, run the scanner, build the report, attach the
configuration and mark acknowledged vulnerabilities. Failures of the temp
dir, the clone or the scanner abort the task with an error. -/
def scanProject (env : ScanEnv) (project : Project) : Except ScanFailure Report :=
  if env.mkdirTempOk = false then .error .mkdirTemp
  else if env.cloneOk = false then .error .clone
  else
    let config := env.projectConfig
    match env.scanResult with
    | .error _ => .error .scanner
    | .ok osvReport =>
      let r := GenerateReport project osvReport
      let r1 : Report := { r with projectConfig := config }
      .ok (markVulnsAsAcknowledgedInReport r1 config)

/-! ## Patrol run (internal/patrol/patrol.go lines 212-316) -/

/-- Source platform tag of a scan location (config.ProjectLocation, whose
Type and Path fields are read at patrol.go lines 273-276). -/
inductive PlatformType where
  | gitlab
  | github
deriving DecidableEq, Repr

/-- Scan location (config.ProjectLocation usage at patrol.go lines 273-276). -/
structure ProjectLocation where
  type : PlatformType
  path : String
deriving DecidableEq, Repr

/-- Gitlab location paths extracted at patrol.go lines 273-276. -/
def gitlabLocs (locations : List ProjectLocation) : List String :=
  (locations.filter (fun l => l.type = PlatformType.gitlab)).map (fun l => l.path)

/-- Patrol arguments (config.PatrolConfig fields read in Patrol,
patrol.go lines 212-259). -/
structure PatrolArgs where
  locations : List ProjectLocation
  reportToIssue : Bool
  reportToSlackChannels : List String
  enableProjectReportTo : Bool
  silentReport : Bool
deriving Repr

/-- Environment of one patrol run: outcomes of the external collaborators.
listProjects is the gitlab listing (projects and whether it reported a
warning); scans gives the outcome of the scan task of the project at each
index; the remaining flags are the warning outcomes of the publishing
steps. -/
structure PatrolEnv where
  mkdirOk : Bool
  listProjects : List String → List Project × Bool
  scans : Nat → Except ScanFailure Report
  issuesWarn : Bool
  slackAvailable : Bool
  slackPostErr : Bool
  projectReportWarn : Bool

/-- Placeholder report sent on a failed scan task
(patrol.go line 297): scanner.Report with the Project and Error set and
every other field at its zero value. -/
def errorReport (p : Project) : Report :=
  { project := p, projectConfig := emptyProjectConfig, isVulnerable := false,
    vulnerabilities := [], issueUrl := "", error := true, outdatedAcks := [] }

/-- Report contributed to the fan-in channel by the task of one project
(patrol.go lines 293-300). -/
def reportFor (p : Project) (outcome : Except ScanFailure Report) : Report :=
  match outcome with
  | .ok r => r
  | .error _ => errorReport p

/-- True when a scan outcome is a failure (the branch at patrol.go
lines 293-297 that joins the error into the warning). -/
def scanFailed (o : Except ScanFailure Report) : Bool :=
  match o with
  | .ok _ => false
  | .error _ => true

/-- Sort of the collected reports (patrol.go lines 311-313):
slices.SortFunc with comparator descending on vulnerability count. SortFunc
leaves the order of ties unspecified; modelled as an insertion sort, which
any comparison sort matches up to permutation of ties. -/
def sortReportsByVulnCount (rs : List Report) : List Report :=
  List.insertionSort (fun a b => b.vulnerabilities.length ≤ a.vulnerabilities.length) rs

/-- Result triple of scanAndGetReports: the report list, whether the
aggregated warning is non-nil, and whether the fatal error is non-nil. -/
structure ScanRunResult where
  reports : List Report
  warn : Bool
  fatal : Bool
deriving Repr

/-- scanAndGetReports (patrol.go lines 264-316). A temp-dir failure returns
nil reports, nil warning and a fatal error (lines 266-269). Otherwise the
gitlab listing runs (its warning joined into the aggregate), every project is
scanned by its own task, the fan-in channel delivers the task reports in an
unspecified order (the perm parameter, a permutation of the project
indices), each failed task contributes its placeholder report and joins the
aggregate warning, and the collected reports are sorted by descending
vulnerability count. -/
def scanAndGetReports (env : PatrolEnv) (locations : List ProjectLocation)
    (perm : List Nat) : ScanRunResult :=
  if env.mkdirOk = false then ⟨[], false, true⟩
  else
    let listed := env.listProjects (gitlabLocs locations)
    let projects := listed.1
    let pwarn := listed.2
    let collected := perm.map (fun i => reportFor (projects.getD i emptyProject) (env.scans i))
    let anyScanFailed := (List.range projects.length).any (fun i => scanFailed (env.scans i))
    ⟨sortReportsByVulnCount collected, pwarn || anyScanFailed, false⟩

/-- Outcome of one Patrol call: whether the returned warning is non-nil,
whether the returned error is non-nil, and the reports the run produced and
went on to publish (empty when the run aborted or found nothing). -/
structure PatrolOutcome where
  warn : Bool
  fatal : Bool
  reports : List Report
deriving Repr

/-- Patrol (patrol.go lines 212-262). A fatal scanAndGetReports error is
returned with a nil warning (lines 213-216). When zero reports were produced
the run returns the scan warning and a nil error (lines 222-225). Otherwise
the publishing steps run, each joining its own warning into the aggregate,
and the run returns the aggregate warning and a nil error. -/
def Patrol (env : PatrolEnv) (args : PatrolArgs) (perm : List Nat) : PatrolOutcome :=
  let s := scanAndGetReports env args.locations perm
  if s.fatal then ⟨false, true, []⟩
  else if s.reports.length = 0 then ⟨s.warn, false, []⟩
  else
    let w1 := s.warn
    let w2 := w1 || (args.reportToIssue && env.issuesWarn)
    let w3 := w2 || (env.slackAvailable && !args.reportToSlackChannels.isEmpty && env.slackPostErr)
    let w4 := w3 || (env.slackAvailable && args.enableProjectReportTo && env.projectReportWarn)
    ⟨w4, false, s.reports⟩

/-! ## Github issue transitions
(internal/repository/github/github.go lines 77-159) -/

/-- Modelled from the spec: repository.VulnerabilityIssueTitle, the fixed
well-known issue title (the internal/repository package defining it is not
under src/; no claim depends on the concrete string). -/
def vulnerabilityIssueTitle : String := "Sheriff - Vulnerability Report"

/-- Issue data read from the github client (number, title, state, url). -/
structure GhIssue where
  number : Int
  title : String
  state : String
  htmlURL : String
deriving DecidableEq, Repr

/-- Mutating call issued to the github client: issue creation
(CreateIssue owner repo with title and body) or issue edit
(UpdateIssue owner repo number with optional body and state). -/
inductive GhAction where
  | createIssue (owner repo title body : String)
  | updateIssue (owner repo : String) (number : Int) (body : Option String) (state : Option String)
deriving DecidableEq, Repr

/-- getVulnerabilityIssue (github.go lines 137-159): page through the
repository issues (state all) and return the first issue carrying the
well-known title, none when the pages are exhausted. -/
def getVulnerabilityIssue : List (List GhIssue) → Option GhIssue
  | [] => none
  | page :: rest =>
    match page.find? (fun i => i.title = vulnerabilityIssueTitle) with
    | some i => some i
    | none => getVulnerabilityIssue rest

/-- Environment of the github issue operations: the issue pages the client
lists (and whether listing succeeds), and the results of create and update
calls. -/
structure GithubEnv where
  issuePages : List (List GhIssue)
  listOk : Bool
  createResult : Except Unit GhIssue
  updateResult : Except Unit GhIssue
deriving Repr

/-- OpenVulnerabilityIssue (github.go lines 102-134): look up the tracked
issue; create one when none exists; otherwise update its body and force state
open, failing when the resulting state is not open (lines 130-132). The
second component records the mutating client calls made. -/
def OpenVulnerabilityIssue (env : GithubEnv) (project : Project) (report : String) :
    Except Unit GhIssue × List GhAction :=
  if env.listOk = false then (.error (), [])
  else
    match getVulnerabilityIssue env.issuePages with
    | none =>
      let act := GhAction.createIssue project.groupOrOwner project.name
        vulnerabilityIssueTitle report
      match env.createResult with
      | .error e => (.error e, [act])
      | .ok created => (.ok created, [act])
    | some issue =>
      let act := GhAction.updateIssue project.groupOrOwner project.name issue.number
        (some report) (some "open")
      match env.updateResult with
      | .error e => (.error e, [act])
      | .ok edited =>
        if edited.state ≠ "open" then (.error (), [act])
        else (.ok edited, [act])

/-- CloseVulnerabilityIssue (github.go lines 77-99): look up the tracked
issue; nothing to do when none exists or it is already closed; otherwise
update it to state closed. The update call at line 91 passes
project.GroupOrOwner as both the owner and the repo argument. The second
component records the mutating client calls made. -/
def CloseVulnerabilityIssue (env : GithubEnv) (project : Project) :
    Option Unit × List GhAction :=
  if env.listOk = false then (some (), [])
  else
    match getVulnerabilityIssue env.issuePages with
    | none => (none, [])
    | some issue =>
      if issue.state = "closed" then (none, [])
      else
        let act := GhAction.updateIssue project.groupOrOwner project.groupOrOwner
          issue.number none (some "closed")
        match env.updateResult with
        | .error _ => (some (), [act])
        | .ok _ => (none, [act])

/-- Per-report dispatch of the issue-tracker publisher
(report/publisher.go lines 24-38, same shape against either repository
service): a vulnerable report opens or updates the issue, a non-vulnerable
report closes it. Returns the mutating client calls made. -/
def publishReportToIssueTracker (env : GithubEnv) (r : Report) (body : String) :
    List GhAction :=
  if r.isVulnerable then (OpenVulnerabilityIssue env r.project body).2
  else (CloseVulnerabilityIssue env r.project).2

/-! ## Concrete instances used by witnesses and counterexamples -/

/-- Operation failing once with a generic error, then succeeding. -/
def opRetryWitness : Nat → Except SlackOpError Nat :=
  fun n => if n = 1 then .error .generic else .ok 42

/-- Operation always failing with a rate-limit error carrying RetryAfter 7. -/
def opRateLimited7 : Nat → Except SlackOpError Nat :=
  fun _ => .error (.rateLimited 7)

/-- Operation always failing with a rate-limit error carrying RetryAfter 0. -/
def opRateLimited0 : Nat → Except SlackOpError Nat :=
  fun _ => .error (.rateLimited 0)

/-- Slack service over a single page holding one channel, with the production
constants of slack.go lines 35-39 (maxAttempts 5, initialBackoff 2s). -/
def svcOnePage : SlackService :=
  { pages := [[{ id := "1234", name := "random channel" }]],
    maxAttempts := 5, initialBackoff := 2000000000 }

/-- Sample vulnerability record. -/
def vulnExample (idv : String) (kind : SeverityScoreKind) : Vulnerability :=
  { id := idv, packageName := "lib", packageVersion := "1.0", packageUrl := "",
    packageEcosystem := "npm", source := "osv", severity := "10",
    severityScoreKind := kind, summary := "s", details := "d",
    fixAvailable := false, ackReason := "" }

/-- Sample report with two vulnerabilities. -/
def reportExample : Report :=
  { project := emptyProject, projectConfig := emptyProjectConfig,
    isVulnerable := true,
    vulnerabilities := [vulnExample "OSV-A" .critical, vulnExample "OSV-B" .high],
    issueUrl := "", error := false, outdatedAcks := [] }

/-- Sample configuration acknowledging OSV-A. -/
def configExample : ProjectConfig :=
  { acknowledged := [{ code := "OSV-A", reason := "accepted risk" }],
    reportToSlackChannel := "" }

/-- Sample project scanned by the patrol. -/
def projScan : Project :=
  { id := 2, name := "svc", nameWithNamespace := "grp/svc", path := "grp/svc",
    groupOrOwner := "grp", webURL := "", httpURLToRepo := "" }

/-- Raw finding with identifier OSV-1 and numeric score 10. -/
def findingOsv1 : RawFinding :=
  { id := "OSV-1", packageName := "lib", packageVersion := "1.0", packageUrl := "",
    packageEcosystem := "npm", source := "osv", severity := "10",
    score := some 10, summary := "s", details := "d", fixAvailable := true }

/-- Scan environment whose single finding is acknowledged in the project
configuration. -/
def scanEnvAcked : ScanEnv :=
  { mkdirTempOk := true, cloneOk := true,
    projectConfig := { acknowledged := [{ code := "OSV-1", reason := "accepted" }],
                       reportToSlackChannel := "" },
    scanResult := .ok (some [findingOsv1]) }

/-- Scan environment with an acknowledged code and no finding at all. -/
def scanEnvStale : ScanEnv :=
  { mkdirTempOk := true, cloneOk := true,
    projectConfig := { acknowledged := [{ code := "GHSA-1", reason := "old" }],
                       reportToSlackChannel := "" },
    scanResult := .ok (some []) }

/-- Patrol environment that resolves no project at all. -/
def envNoTargets : PatrolEnv :=
  { mkdirOk := true, listProjects := fun _ => ([], false),
    scans := fun _ => .error .clone, issuesWarn := false,
    slackAvailable := false, slackPostErr := false, projectReportWarn := false }

/-- Patrol arguments with no location and every sink off. -/
def argsNoTargets : PatrolArgs :=
  { locations := [], reportToIssue := false, reportToSlackChannels := [],
    enableProjectReportTo := false, silentReport := false }

/-- Two sample projects for the failure-isolation witness. -/
def projA : Project :=
  { id := 10, name := "alpha", nameWithNamespace := "grp/alpha", path := "grp/alpha",
    groupOrOwner := "grp", webURL := "", httpURLToRepo := "" }

def projB : Project :=
  { id := 11, name := "beta", nameWithNamespace := "grp/beta", path := "grp/beta",
    groupOrOwner := "grp", webURL := "", httpURLToRepo := "" }

/-- Successful report for projB with one vulnerability. -/
def reportB : Report :=
  { project := projB, projectConfig := emptyProjectConfig, isVulnerable := true,
    vulnerabilities := [vulnExample "OSV-C" .high], issueUrl := "", error := false,
    outdatedAcks := [] }

/-- Patrol environment with two listed projects in which only the scan of the
first fails (clone error). -/
def envOneFailure : PatrolEnv :=
  { mkdirOk := true, listProjects := fun _ => ([projA, projB], false),
    scans := fun i => if i = 0 then .error .clone else .ok reportB,
    issuesWarn := false, slackAvailable := false, slackPostErr := false,
    projectReportWarn := false }

/-- Locations argument for the failure-isolation witness. -/
def locsOneFailure : List ProjectLocation := [{ type := .gitlab, path := "grp" }]

/-- Github environment holding one open tracked issue numbered 7. -/
def ghEnvOpenIssue : GithubEnv :=
  { issuePages := [[{ number := 7, title := vulnerabilityIssueTitle,
                      state := "open", htmlURL := "https://issue/7" }]],
    listOk := true,
    createResult := .error (),
    updateResult := .ok { number := 7, title := vulnerabilityIssueTitle,
                          state := "closed", htmlURL := "https://issue/7" } }

/-- Project owned by acme with repository name webapp. -/
def projAcme : Project :=
  { id := 1, name := "webapp", nameWithNamespace := "acme/webapp",
    path := "acme/webapp", groupOrOwner := "acme", webURL := "",
    httpURLToRepo := "" }

/-- Non-vulnerable report for the acme project. -/
def reportAcmeClean : Report :=
  { project := projAcme, projectConfig := emptyProjectConfig,
    isVulnerable := false, vulnerabilities := [], issueUrl := "", error := false,
    outdatedAcks := [] }

/-! ## Lemmas on message splitting -/

theorem lastNewlineIdx_spec : ∀ {l : List Char} {i : Nat},
    lastNewlineIdx l = some i → i < l.length ∧ l[i]? = some '\n' := by
  intro l
  induction l with
  | nil => intro i h; simp [lastNewlineIdx] at h
  | cons c cs ih =>
    intro i h
    unfold lastNewlineIdx at h
    cases hr : lastNewlineIdx cs with
    | some j =>
      rw [hr] at h
      simp only [Option.some.injEq] at h
      subst h
      obtain ⟨hlt, hget⟩ := ih hr
      exact ⟨by simpa using Nat.succ_lt_succ hlt, by simpa using hget⟩
    | none =>
      rw [hr] at h
      by_cases hc : c = '\n'
      · rw [if_pos hc] at h
        obtain rfl : (0 : Nat) = i := by injection h
        exact ⟨by simp, by simp [hc]⟩
      · rw [if_neg hc] at h
        cases h

theorem splitIdx_le (s : List Char) (maxLen : Nat) : splitIdx s maxLen ≤ maxLen := by
  unfold splitIdx
  cases h : lastNewlineIdx (s.take maxLen) with
  | none => exact le_rfl
  | some i =>
    show i + 1 ≤ maxLen
    have h1 := (lastNewlineIdx_spec h).1
    have hlen : (s.take maxLen).length ≤ maxLen := by
      simp [List.length_take]
    omega

theorem splitIdx_pos (s : List Char) (maxLen : Nat) (h : 1 ≤ maxLen) :
    1 ≤ splitIdx s maxLen := by
  unfold splitIdx
  cases hr : lastNewlineIdx (s.take maxLen) with
  | none => exact h
  | some i => show 1 ≤ i + 1; omega

theorem splitMessageGo_fuel (maxLen : Nat) (h : 1 ≤ maxLen) :
    ∀ (n fuel : Nat) (s : List Char), s.length ≤ fuel → s.length ≤ n →
      splitMessageGo fuel s maxLen = splitMessageGo n s maxLen := by
  intro n
  induction n with
  | zero =>
    intro fuel s _ hn
    have hs : s = [] := List.length_eq_zero.mp (Nat.le_zero.mp hn)
    subst hs
    cases fuel <;> simp [splitMessageGo]
  | succ n ih =>
    intro fuel s hf hn
    cases fuel with
    | zero =>
      have hs : s = [] := List.length_eq_zero.mp (Nat.le_zero.mp hf)
      subst hs
      simp [splitMessageGo]
    | succ f =>
      show splitMessageGo (f + 1) s maxLen = splitMessageGo (n + 1) s maxLen
      by_cases hlt : maxLen < s.length
      · have e1 : splitMessageGo (f + 1) s maxLen =
            s.take (splitIdx s maxLen) ::
              splitMessageGo f (s.drop (splitIdx s maxLen)) maxLen := by
          simp [splitMessageGo, if_pos hlt, splitIdx]
        have e2 : splitMessageGo (n + 1) s maxLen =
            s.take (splitIdx s maxLen) ::
              splitMessageGo n (s.drop (splitIdx s maxLen)) maxLen := by
          simp [splitMessageGo, if_pos hlt, splitIdx]
        rw [e1, e2]
        have hidx : 1 ≤ splitIdx s maxLen := splitIdx_pos s maxLen h
        have hdl : (s.drop (splitIdx s maxLen)).length = s.length - splitIdx s maxLen := by
          simp [List.length_drop]
        have h1 : (s.drop (splitIdx s maxLen)).length ≤ f := by omega
        have h2 : (s.drop (splitIdx s maxLen)).length ≤ n := by omega
        rw [ih f _ h1 h2]
      · simp [splitMessageGo, if_neg hlt]

theorem splitMessage_unfold (s : List Char) (maxLen : Nat) (h : 1 ≤ maxLen) :
    splitMessage s maxLen =
      if maxLen < s.length then
        s.take (splitIdx s maxLen) :: splitMessage (s.drop (splitIdx s maxLen)) maxLen
      else [s] := by
  unfold splitMessage
  by_cases hlt : maxLen < s.length
  · obtain ⟨n, hn⟩ : ∃ n, s.length = n + 1 := ⟨s.length - 1, by omega⟩
    rw [if_pos hlt]
    have hidx : 1 ≤ splitIdx s maxLen := splitIdx_pos s maxLen h
    have hdl : (s.drop (splitIdx s maxLen)).length = s.length - splitIdx s maxLen := by
      simp [List.length_drop]
    calc splitMessageGo s.length s maxLen
        = splitMessageGo (n + 1) s maxLen := by rw [hn]
      _ = s.take (splitIdx s maxLen) ::
            splitMessageGo n (s.drop (splitIdx s maxLen)) maxLen := by
          simp only [splitMessageGo]
          rw [if_pos hlt]
      _ = s.take (splitIdx s maxLen) ::
            splitMessage (s.drop (splitIdx s maxLen)) maxLen := by
          congr 1
          exact splitMessageGo_fuel maxLen h
            (s.drop (splitIdx s maxLen)).length n
            (s.drop (splitIdx s maxLen)) (by omega) le_rfl
  · rw [if_neg hlt]
    cases hs : s.length with
    | zero => rfl
    | succ n =>
      simp only [splitMessageGo]
      rw [if_neg hlt]

theorem splitMessage_join_aux (maxLen : Nat) (h : 1 ≤ maxLen) :
    ∀ (n : Nat) (s : List Char), s.length ≤ n →
      (splitMessage s maxLen).flatten = s := by
  intro n
  induction n with
  | zero =>
    intro s hn
    have hs : s = [] := List.length_eq_zero.mp (Nat.le_zero.mp hn)
    subst hs
    rw [splitMessage_unfold _ _ h]
    simp
  | succ n ih =>
    intro s hn
    rw [splitMessage_unfold _ _ h]
    by_cases hlt : maxLen < s.length
    · rw [if_pos hlt, List.flatten_cons]
      have hidx : 1 ≤ splitIdx s maxLen := splitIdx_pos s maxLen h
      have hdl : (s.drop (splitIdx s maxLen)).length = s.length - splitIdx s maxLen := by
        simp [List.length_drop]
      have hrec := ih (s.drop (splitIdx s maxLen)) (by omega)
      rw [hrec, List.take_append_drop]
    · rw [if_neg hlt]
      simp

theorem splitMessage_chunk_le_aux (maxLen : Nat) (h : 1 ≤ maxLen) :
    ∀ (n : Nat) (s : List Char), s.length ≤ n →
      ∀ c ∈ splitMessage s maxLen, c.length ≤ maxLen := by
  intro n
  induction n with
  | zero =>
    intro s hn c hc
    have hs : s = [] := List.length_eq_zero.mp (Nat.le_zero.mp hn)
    subst hs
    rw [splitMessage_unfold _ _ h] at hc
    simp at hc
    subst hc
    simp
  | succ n ih =>
    intro s hn c hc
    rw [splitMessage_unfold _ _ h] at hc
    by_cases hlt : maxLen < s.length
    · rw [if_pos hlt] at hc
      rcases List.mem_cons.mp hc with hc | hc
      · subst hc
        calc (s.take (splitIdx s maxLen)).length ≤ splitIdx s maxLen := by
              simp [List.length_take]
          _ ≤ maxLen := splitIdx_le s maxLen
      · have hidx : 1 ≤ splitIdx s maxLen := splitIdx_pos s maxLen h
        have hdl : (s.drop (splitIdx s maxLen)).length = s.length - splitIdx s maxLen := by
          simp [List.length_drop]
        exact ih (s.drop (splitIdx s maxLen)) (by omega) c hc
    · rw [if_neg hlt] at hc
      simp at hc
      subst hc
      omega

theorem splitMessage_boundary_aux (maxLen : Nat) (h : 1 ≤ maxLen) :
    ∀ (n : Nat) (s : List Char), s.length ≤ n →
      ∀ k, k + 1 < (splitMessage s maxLen).length →
        chunkBoundary maxLen ((splitMessage s maxLen).getD k [])
          (((splitMessage s maxLen).drop (k + 1)).flatten) := by
  intro n
  induction n with
  | zero =>
    intro s hn k hk
    have hs : s = [] := List.length_eq_zero.mp (Nat.le_zero.mp hn)
    subst hs
    rw [splitMessage_unfold _ _ h] at hk
    simp at hk
  | succ n ih =>
    intro s hn k hk
    rw [splitMessage_unfold _ _ h] at hk ⊢
    by_cases hlt : maxLen < s.length
    · rw [if_pos hlt] at hk ⊢
      have hidx : 1 ≤ splitIdx s maxLen := splitIdx_pos s maxLen h
      have hdl : (s.drop (splitIdx s maxLen)).length = s.length - splitIdx s maxLen := by
        simp [List.length_drop]
      cases k with
      | zero =>
        simp only [List.getD_cons_zero, List.drop_succ_cons, List.drop_zero]
        rw [splitMessage_join_aux maxLen h n (s.drop (splitIdx s maxLen)) (by omega)]
        unfold chunkBoundary
        rw [List.take_append_drop]
        unfold splitIdx
        cases hnl : lastNewlineIdx (s.take maxLen) with
        | none =>
          show (s.take maxLen).length = maxLen
          rw [List.length_take]
          omega
        | some i =>
          obtain ⟨hilt, hget⟩ := lastNewlineIdx_spec hnl
          rw [List.length_take] at hilt
          have hi1 : i + 1 ≤ s.length := by omega
          show (s.take (i + 1)).length = i + 1 ∧ (s.take (i + 1)).getLast? = some '\n'
          constructor
          · rw [List.length_take]; omega
          · have hlen1 : (s.take (i + 1)).length = i + 1 := by
              rw [List.length_take]; omega
            rw [List.getLast?_eq_getElem?, hlen1]
            simp only [Nat.add_sub_cancel]
            rw [List.getElem?_take_of_lt (by omega)]
            rw [List.getElem?_take_of_lt (by omega)] at hget
            exact hget
      | succ k =>
        simp only [List.getD_cons_succ, List.drop_succ_cons]
        exact ih (s.drop (splitIdx s maxLen)) (by omega) k
          (by simpa using Nat.lt_of_succ_lt_succ hk)
    · rw [if_neg hlt] at hk
      simp at hk

/-- C2: for any text s and limit L above zero, the chunks of splitMessage
concatenate back to s, every chunk has length at most L, and each chunk
boundary falls right after the last newline of the L-symbol window of the
text remaining at its iteration, or at exactly L when that window has no
newline. -/
theorem splitMessage_chunking_spec (s : List Char) (L : Nat) (hL : 0 < L) :
    (splitMessage s L).flatten = s ∧
    (∀ c ∈ splitMessage s L, c.length ≤ L) ∧
    (∀ k, k + 1 < (splitMessage s L).length →
      chunkBoundary L ((splitMessage s L).getD k [])
        (((splitMessage s L).drop (k + 1)).flatten)) :=
  ⟨splitMessage_join_aux L hL s.length s le_rfl,
   splitMessage_chunk_le_aux L hL s.length s le_rfl,
   splitMessage_boundary_aux L hL s.length s le_rfl⟩

/-- Witness for C2 at a concrete input. -/
theorem splitMessage_chunking_spec_witness :
    0 < 4 ∧
    ((splitMessage "ab\ncdef".toList 4).flatten = "ab\ncdef".toList ∧
    (∀ c ∈ splitMessage "ab\ncdef".toList 4, c.length ≤ 4) ∧
    (∀ k, k + 1 < (splitMessage "ab\ncdef".toList 4).length →
      chunkBoundary 4 ((splitMessage "ab\ncdef".toList 4).getD k [])
        (((splitMessage "ab\ncdef".toList 4).drop (k + 1)).flatten))) :=
  ⟨by decide, splitMessage_chunking_spec "ab\ncdef".toList 4 (by decide)⟩

/-! ## Lemmas on the retry executor -/

theorem range_map_shift {α : Type} (f : Nat → α) (j a : Nat) :
    (List.range (j + 1)).map (fun t => f (a + t)) =
      f a :: (List.range j).map (fun t => f (a + 1 + t)) := by
  rw [List.range_succ_eq_map, List.map_cons, List.map_map]
  have hfun : ((fun t => f (a + t)) ∘ Nat.succ) = fun t => f (a + 1 + t) := by
    funext t
    simp only [Function.comp_apply]
    congr 1
    omega
  rw [hfun]
  simp

theorem retryGo_step_ok {T : Type} (op : Nat → Except SlackOpError T) (backoff : Int)
    (left attempt : Nat) (v : T) (h : op attempt = .ok v) :
    retryGo op backoff (left + 1) attempt = (.ok v, 1, []) := by
  simp [retryGo, h]

theorem retryGo_step_last {T : Type} (op : Nat → Except SlackOpError T) (backoff : Int)
    (attempt : Nat) (e : SlackOpError) (h : op attempt = .error e) :
    retryGo op backoff 1 attempt = (.error e, 1, []) := by
  simp [retryGo, h]

theorem retryGo_step_err {T : Type} (op : Nat → Except SlackOpError T) (backoff : Int)
    (left attempt : Nat) (e : SlackOpError) (h : op attempt = .error e)
    (hl : left ≠ 0) :
    retryGo op backoff (left + 1) attempt =
      ((retryGo op backoff left (attempt + 1)).1,
       (retryGo op backoff left (attempt + 1)).2.1 + 1,
       sleepDuration backoff attempt e :: (retryGo op backoff left (attempt + 1)).2.2) := by
  simp [retryGo, h, hl]

theorem retryGo_success {T : Type} (op : Nat → Except SlackOpError T) (backoff : Int)
    (errs : Nat → SlackOpError) :
    ∀ (j left attempt : Nat), j < left →
      (∀ i, attempt ≤ i → i < attempt + j → op i = .error (errs i)) →
      ∀ v, op (attempt + j) = .ok v →
      retryGo op backoff left attempt =
        (.ok v, j + 1,
         (List.range j).map (fun t => sleepDuration backoff (attempt + t) (errs (attempt + t)))) := by
  intro j
  induction j with
  | zero =>
    intro left attempt hj _ v hok
    obtain ⟨l, rfl⟩ : ∃ l, left = l + 1 := ⟨left - 1, by omega⟩
    rw [retryGo_step_ok op backoff l attempt v (by simpa using hok)]
    simp
  | succ j ih =>
    intro left attempt hj hfail v hok
    obtain ⟨l, rfl⟩ : ∃ l, left = l + 1 := ⟨left - 1, by omega⟩
    rw [retryGo_step_err op backoff l attempt (errs attempt)
      (hfail attempt le_rfl (by omega)) (by omega)]
    have hrec := ih l (attempt + 1) (by omega)
      (fun i h1 h2 => hfail i (by omega) (by omega)) v
      (by rw [show attempt + 1 + j = attempt + (j + 1) from by omega]; exact hok)
    rw [hrec, range_map_shift (fun t => sleepDuration backoff t (errs t)) j attempt]

theorem retryGo_allfail {T : Type} (op : Nat → Except SlackOpError T) (backoff : Int)
    (errs : Nat → SlackOpError) :
    ∀ (left attempt : Nat), 1 ≤ left →
      (∀ i, attempt ≤ i → i < attempt + left → op i = .error (errs i)) →
      retryGo op backoff left attempt =
        (.error (errs (attempt + left - 1)), left,
         (List.range (left - 1)).map
           (fun t => sleepDuration backoff (attempt + t) (errs (attempt + t)))) := by
  intro left
  induction left with
  | zero => intro attempt h; omega
  | succ l ih =>
    intro attempt _ hfail
    by_cases hl : l = 0
    · subst hl
      rw [retryGo_step_last op backoff attempt (errs attempt)
        (hfail attempt le_rfl (by omega))]
      simp
    · rw [retryGo_step_err op backoff l attempt (errs attempt)
        (hfail attempt le_rfl (by omega)) hl]
      obtain ⟨l0, rfl⟩ : ∃ l0, l = l0 + 1 := ⟨l - 1, by omega⟩
      have hrec := ih (attempt + 1) (by omega)
        (fun i h1 h2 => hfail i (by omega) (by omega))
      rw [hrec]
      have hidx : attempt + 1 + (l0 + 1) - 1 = attempt + (l0 + 1 + 1) - 1 := by omega
      rw [hidx]
      refine congrArg₂ Prod.mk rfl (congrArg₂ Prod.mk rfl ?_)
      rw [show l0 + 1 + 1 - 1 = l0 + 1 from rfl,
        show l0 + 1 - 1 = l0 from rfl]
      rw [range_map_shift (fun t => sleepDuration backoff t (errs t)) l0 attempt]

theorem retryGo_sleep_get {T : Type} (op : Nat → Except SlackOpError T) (backoff : Int)
    (errs : Nat → SlackOpError) :
    ∀ (j left attempt : Nat), j + 2 ≤ left →
      (∀ i, attempt ≤ i → i ≤ attempt + j → op i = .error (errs i)) →
      (retryGo op backoff left attempt).2.2[j]? =
        some (sleepDuration backoff (attempt + j) (errs (attempt + j))) := by
  intro j
  induction j with
  | zero =>
    intro left attempt hl hfail
    obtain ⟨l, rfl⟩ : ∃ l, left = l + 1 := ⟨left - 1, by omega⟩
    rw [retryGo_step_err op backoff l attempt (errs attempt)
      (hfail attempt le_rfl (by omega)) (by omega)]
    simp
  | succ j ih =>
    intro left attempt hl hfail
    obtain ⟨l, rfl⟩ : ∃ l, left = l + 1 := ⟨left - 1, by omega⟩
    rw [retryGo_step_err op backoff l attempt (errs attempt)
      (hfail attempt le_rfl (by omega)) (by omega)]
    simp only [List.getElem?_cons_succ]
    have hrec := ih l (attempt + 1) (by omega)
      (fun i h1 h2 => hfail i (by omega) (by omega))
    rw [hrec]
    have hidx : attempt + 1 + j = attempt + (j + 1) := by omega
    rw [hidx]

theorem finishRetry_sleeps {T : Type} (m : Nat)
    (r : Except SlackOpError T × Nat × List Int) :
    (finishRetry m r).sleeps = r.2.2 := by
  unfold finishRetry
  cases h : r.1 <;> rfl

theorem runWithRetries_clamp {T : Type} (op : Nat → Except SlackOpError T)
    (maxAttempts backoff : Int) (m : Nat)
    (hm : m = if maxAttempts ≤ 0 then 1 else maxAttempts.toNat) :
    runWithRetries op maxAttempts backoff = finishRetry m (retryGo op backoff m 1) := by
  subst hm
  rfl

/-- C3: an operation that fails on its first k invocations and succeeds on
invocation k+1, run with maxAttempts k+2, returns the success value having
invoked the operation exactly k+1 times; an operation failing on every
invocation, run with maxAttempts k of at least 1, is invoked exactly k times
and the returned error wraps the last underlying error and states the k
attempts exhausted. -/
theorem runWithRetries_termination {T : Type} (op : Nat → Except SlackOpError T)
    (backoff : Int) (errs : Nat → SlackOpError) (k : Nat) :
    ((∀ i, 1 ≤ i → i ≤ k → op i = .error (errs i)) →
      ∀ v, op (k + 1) = .ok v →
        (runWithRetries op ((k : Int) + 2) backoff).result = .ok v ∧
        (runWithRetries op ((k : Int) + 2) backoff).calls = k + 1) ∧
    ((∀ i, 1 ≤ i → i ≤ k → op i = .error (errs i)) → 1 ≤ k →
      (runWithRetries op (k : Int) backoff).calls = k ∧
      (runWithRetries op (k : Int) backoff).result = .error (k, errs k)) := by
  constructor
  · intro hfail v hok
    have hcond : ¬((k : Int) + 2 ≤ 0) := by omega
    have hm : (k + 2 : Nat) = if (k : Int) + 2 ≤ 0 then 1 else ((k : Int) + 2).toNat := by
      rw [if_neg hcond]
      omega
    rw [runWithRetries_clamp op ((k : Int) + 2) backoff (k + 2) hm]
    have hloop := retryGo_success op backoff errs k (k + 2) 1 (by omega)
      (fun i h1 h2 => hfail i h1 (by omega)) v
      (by rw [show 1 + k = k + 1 from by omega]; exact hok)
    rw [hloop]
    exact ⟨rfl, rfl⟩
  · intro hfail hk
    have hcond : ¬((k : Int) ≤ 0) := by omega
    have hm : k = if (k : Int) ≤ 0 then 1 else (k : Int).toNat := by
      rw [if_neg hcond]
      omega
    rw [runWithRetries_clamp op (k : Int) backoff k hm]
    have hloop := retryGo_allfail op backoff errs k 1 hk
      (fun i h1 h2 => hfail i h1 (by omega))
    have hidx : 1 + k - 1 = k := by omega
    rw [hidx] at hloop
    rw [hloop]
    exact ⟨rfl, rfl⟩

/-- Witness for C3 at a concrete operation failing once then succeeding. -/
theorem runWithRetries_termination_witness :
    (∀ i, 1 ≤ i → i ≤ 1 → opRetryWitness i = .error .generic) ∧
    opRetryWitness 2 = .ok 42 ∧
    ((runWithRetries opRetryWitness (((1 : Nat) : Int) + 2) 5).result = .ok 42 ∧
     (runWithRetries opRetryWitness (((1 : Nat) : Int) + 2) 5).calls = 2) ∧
    ((runWithRetries opRetryWitness ((1 : Nat) : Int) 5).calls = 1 ∧
     (runWithRetries opRetryWitness ((1 : Nat) : Int) 5).result = .error (1, .generic)) := by
  have h := runWithRetries_termination opRetryWitness 5 (fun _ => .generic) 1
  have hfail : ∀ i, 1 ≤ i → i ≤ 1 → opRetryWitness i = .error .generic := by
    intro i h1 h2
    have : i = 1 := le_antisymm h2 h1
    subst this
    rfl
  exact ⟨hfail, rfl, h.1 hfail 42 rfl, h.2 hfail le_rfl⟩

/-- C4 counterexample: a failure that carries a service-supplied retry-after
duration of 0 is followed by the exponential-backoff sleep (5 here), not by a
sleep of exactly that duration, because the override at slack.go line 124
requires RetryAfter to be positive. -/
theorem runWithRetries_sleep_counterexample :
    (runWithRetries opRateLimited0 2 5).sleeps = [5] ∧ (5 : Int) ≠ 0 := by
  constructor
  · rfl
  · decide

/-- C4 as amended: for every failed non-final attempt n, a rate-limit error
with positive RetryAfter d makes the sleep before attempt n+1 exactly d;
otherwise (generic error, or rate-limit error with RetryAfter of zero or
below) the sleep is initialBackoff * 2 ^ (n - 1) evaluated in wrapping 64-bit
signed time.Duration arithmetic. -/
theorem runWithRetries_sleep_amended {T : Type} (op : Nat → Except SlackOpError T)
    (backoff maxAttempts : Int) (errs : Nat → SlackOpError) (n : Nat)
    (hn : 1 ≤ n)
    (hfail : ∀ i, 1 ≤ i → i ≤ n → op i = .error (errs i))
    (hnonfinal : (n : Int) + 1 ≤ maxAttempts) :
    (runWithRetries op maxAttempts backoff).sleeps[n - 1]? =
      some (match errs n with
        | .rateLimited d =>
          if 0 < d then d else int64Wrap (backoff * int64Wrap (2 ^ (n - 1)))
        | .generic => int64Wrap (backoff * int64Wrap (2 ^ (n - 1)))) := by
  have hm : maxAttempts.toNat = if maxAttempts ≤ 0 then 1 else maxAttempts.toNat := by
    rw [if_neg (by omega)]
  rw [runWithRetries_clamp op maxAttempts backoff maxAttempts.toNat hm,
    finishRetry_sleeps]
  have hget := retryGo_sleep_get op backoff errs (n - 1) maxAttempts.toNat 1
    (by omega)
    (fun i h1 h2 => hfail i h1 (by omega))
  rw [show 1 + (n - 1) = n from by omega] at hget
  rw [hget]
  cases he : errs n <;> rfl

/-- Witness for the amended C4: a rate-limit failure with RetryAfter 7 makes
the first sleep exactly 7. -/
theorem runWithRetries_sleep_amended_witness :
    1 ≤ 1 ∧ ((1 : Nat) : Int) + 1 ≤ 3 ∧
    (runWithRetries opRateLimited7 3 4).sleeps[1 - 1]? = some 7 := by
  refine ⟨le_rfl, by decide, ?_⟩
  have h := runWithRetries_sleep_amended opRateLimited7 4 3 (fun _ => .rateLimited 7) 1
    le_rfl (fun i h1 h2 => rfl) (by decide)
  simpa using h

/-! ## Channel resolution is not cached -/

/-- C10, evaluated at the failing input: the slack service value has no cache
field, so resolving the channel name performs one GetConversations listing
call, and a later resolution of the same name on the same instance performs
one listing call again (the resolution is a pure function of the immutable
service value), where the claim and the test TestChannelIsCached require zero
further listing calls after the first success. -/
theorem findSlackChannel_uncached_eval :
    findSlackChannel svcOnePage "random channel" =
      (some { id := "1234", name := "random channel" }, 1) ∧
    (findSlackChannel svcOnePage "random channel").2 +
      (findSlackChannel svcOnePage "random channel").2 = 2 := by
  constructor
  · rfl
  · rfl

/-! ## Acknowledgement marking refines the claim form -/

theorem filter_code_getLast_eq_find (k : String) :
    ∀ (acks : List Acknowledgement), (acks.map (fun a => a.code)).Nodup →
      (acks.filter (fun a => a.code = k)).getLast? =
        acks.find? (fun a => a.code = k) := by
  intro acks
  induction acks with
  | nil => intro _; rfl
  | cons a as ih =>
    intro h
    rw [List.map_cons, List.nodup_cons] at h
    obtain ⟨hna, hnd⟩ := h
    by_cases hc : a.code = k
    · have hfilter : as.filter (fun x => x.code = k) = [] := by
        refine List.filter_eq_nil_iff.mpr ?_
        intro x hx
        simp only [decide_eq_true_eq]
        intro hxk
        exact hna (List.mem_map.mpr ⟨x, hx, by rw [hxk, hc]⟩)
      rw [List.filter_cons_of_pos (by simpa using hc), hfilter,
        List.find?_cons_of_pos as (by simpa using hc)]
      rfl
    · rw [List.filter_cons_of_neg (by simpa using hc),
        List.find?_cons_of_neg as (by simpa using hc)]
      exact ih hnd

/-- C6: under pairwise-distinct acknowledgement codes,
markVulnsAsAcknowledgedInReport equals the reference form written from the
claim: exactly the vulnerabilities whose Id occurs among the configured codes
get kind Acknowledged and the configured reason, everything else in the
report is unchanged. -/
theorem markVulnsAsAcknowledged_refines (report : Report) (config : ProjectConfig)
    (h : (config.acknowledged.map (fun a => a.code)).Nodup) :
    markVulnsAsAcknowledgedInReport report config =
      markVulnsAcknowledgedRef report config := by
  unfold markVulnsAsAcknowledgedInReport markVulnsAcknowledgedRef
  congr 1
  apply List.map_congr_left
  intro v _
  cases hfind : config.acknowledged.find? (fun a => a.code = v.id) with
  | some a =>
    have hmem : ackCodesMember config.acknowledged v.id = true := by
      unfold ackCodesMember
      exact List.any_eq_true.mpr
        ⟨a, List.mem_of_find?_eq_some hfind, by simpa using List.find?_some hfind⟩
    have hreason : ackReasonsLookup config.acknowledged v.id = some a.reason := by
      unfold ackReasonsLookup
      rw [filter_code_getLast_eq_find v.id config.acknowledged h, hfind]
      rfl
    rw [if_pos hmem, hreason]
  | none =>
    have hmem : ackCodesMember config.acknowledged v.id = false := by
      unfold ackCodesMember
      rw [List.any_eq_false]
      intro x hx
      have := List.find?_eq_none.mp hfind x hx
      simpa using this
    rw [if_neg (by simp [hmem])]

/-- Witness for C6 at a concrete report and configuration. -/
theorem markVulnsAsAcknowledged_refines_witness :
    (configExample.acknowledged.map (fun a => a.code)).Nodup ∧
    markVulnsAsAcknowledgedInReport reportExample configExample =
      markVulnsAcknowledgedRef reportExample configExample :=
  ⟨by decide, markVulnsAsAcknowledged_refines reportExample configExample (by decide)⟩

/-! ## IsVulnerable and OutdatedAcks after acknowledgement merging -/

/-- C7, evaluated at the failing input: a scan whose single finding is
acknowledged in the project configuration yields a report in which every
vulnerability has kind Acknowledged and yet IsVulnerable is still true,
because IsVulnerable is computed inside GenerateReport before
markVulnsAsAcknowledgedInReport runs and scanProject never recomputes it.
No implementation of GenerateReport could make the claim hold: it receives
neither the configuration nor the acknowledgements, and the marking step
never writes IsVulnerable. -/
theorem scanProject_isVulnerable_stale_eval :
    (scanProject scanEnvAcked projScan).toOption.map (fun r => r.isVulnerable) =
      some true ∧
    (scanProject scanEnvAcked projScan).toOption.map
      (fun r => r.vulnerabilities.all
        (fun v => v.severityScoreKind == SeverityScoreKind.acknowledged)) =
      some true := by
  constructor
  · rfl
  · rfl

/-- C8, evaluated at the failing input: the configuration acknowledges
GHSA-1, the scan has no finding at all, and the report returned by
scanProject still carries an empty OutdatedAcks, because no code in src/
writes that field (GenerateReport cannot, having no access to the
configuration, and scanProject and markVulnsAsAcknowledgedInReport do not). -/
theorem scanProject_outdatedAcks_eval :
    (scanProject scanEnvStale projScan).toOption.map (fun r => r.outdatedAcks) =
      some [] ∧
    scanEnvStale.projectConfig.acknowledged.map (fun a => a.code) = ["GHSA-1"] := by
  constructor
  · rfl
  · rfl

/-! ## Failure isolation of the scan fan-out -/

theorem scanAndGetReports_ok (env : PatrolEnv) (locations : List ProjectLocation)
    (perm : List Nat) (hmk : env.mkdirOk = true) :
    scanAndGetReports env locations perm =
      ⟨sortReportsByVulnCount (perm.map (fun i =>
          reportFor ((env.listProjects (gitlabLocs locations)).1.getD i emptyProject)
            (env.scans i))),
       (env.listProjects (gitlabLocs locations)).2 ||
         (List.range (env.listProjects (gitlabLocs locations)).1.length).any
           (fun i => scanFailed (env.scans i)),
       false⟩ := by
  unfold scanAndGetReports
  rw [hmk]
  rfl

/-- C1: with the run directory created and a clean listing of N projects, if
the scan of project k fails (clone or scanner error) then the run returns no
fatal error, a non-nil warning, exactly N reports, the collected reports are
exactly the per-project reports (one per listed project, in some order), the
placeholder report of project k is among them with Error true, an empty
vulnerability list and IsVulnerable false, and the report of every project
whose scan succeeded is the report built from its own scan. -/
theorem scanAndGetReports_failure_isolation (env : PatrolEnv)
    (locations : List ProjectLocation) (perm : List Nat) (k : Nat) (f : ScanFailure)
    (hmk : env.mkdirOk = true)
    (hlw : (env.listProjects (gitlabLocs locations)).2 = false)
    (hperm : perm.Perm (List.range (env.listProjects (gitlabLocs locations)).1.length))
    (hk : k < (env.listProjects (gitlabLocs locations)).1.length)
    (hfail : env.scans k = .error f) :
    (scanAndGetReports env locations perm).fatal = false ∧
    (scanAndGetReports env locations perm).warn = true ∧
    (scanAndGetReports env locations perm).reports.length =
      (env.listProjects (gitlabLocs locations)).1.length ∧
    (scanAndGetReports env locations perm).reports.Perm
      ((List.range (env.listProjects (gitlabLocs locations)).1.length).map
        (fun i => reportFor ((env.listProjects (gitlabLocs locations)).1.getD i emptyProject)
          (env.scans i))) ∧
    errorReport ((env.listProjects (gitlabLocs locations)).1.getD k emptyProject) ∈
      (scanAndGetReports env locations perm).reports ∧
    (errorReport ((env.listProjects (gitlabLocs locations)).1.getD k emptyProject)).error
      = true ∧
    (errorReport ((env.listProjects (gitlabLocs locations)).1.getD k emptyProject)).vulnerabilities
      = [] ∧
    (errorReport ((env.listProjects (gitlabLocs locations)).1.getD k emptyProject)).isVulnerable
      = false ∧
    (∀ i r, i < (env.listProjects (gitlabLocs locations)).1.length →
      env.scans i = .ok r →
      r ∈ (scanAndGetReports env locations perm).reports) := by
  rw [scanAndGetReports_ok env locations perm hmk]
  have hsorted : (sortReportsByVulnCount (perm.map (fun i =>
      reportFor ((env.listProjects (gitlabLocs locations)).1.getD i emptyProject)
        (env.scans i)))).Perm
      ((List.range (env.listProjects (gitlabLocs locations)).1.length).map
        (fun i => reportFor ((env.listProjects (gitlabLocs locations)).1.getD i emptyProject)
          (env.scans i))) := by
    exact (List.perm_insertionSort _ _).trans (hperm.map _)
  refine ⟨rfl, ?_, ?_, hsorted, ?_, rfl, rfl, rfl, ?_⟩
  · show ((env.listProjects (gitlabLocs locations)).2 ||
      (List.range (env.listProjects (gitlabLocs locations)).1.length).any
        (fun i => scanFailed (env.scans i))) = true
    rw [hlw, Bool.false_or]
    refine List.any_eq_true.mpr ⟨k, List.mem_range.mpr hk, ?_⟩
    show scanFailed (env.scans k) = true
    rw [hfail]
    rfl
  · rw [hsorted.length_eq, List.length_map, List.length_range]
  · refine hsorted.mem_iff.mpr (List.mem_map.mpr ⟨k, List.mem_range.mpr hk, ?_⟩)
    show reportFor ((env.listProjects (gitlabLocs locations)).1.getD k emptyProject)
      (env.scans k) = errorReport _
    rw [hfail]
    rfl
  · intro i r hi hok
    refine hsorted.mem_iff.mpr (List.mem_map.mpr ⟨i, List.mem_range.mpr hi, ?_⟩)
    show reportFor ((env.listProjects (gitlabLocs locations)).1.getD i emptyProject)
      (env.scans i) = r
    rw [hok]
    rfl

/-- Witness for C1: two listed projects, the first failing with a clone
error, fan-in order reversed. -/
theorem scanAndGetReports_failure_isolation_witness :
    envOneFailure.mkdirOk = true ∧
    (envOneFailure.listProjects (gitlabLocs locsOneFailure)).2 = false ∧
    ([1, 0] : List Nat).Perm
      (List.range (envOneFailure.listProjects (gitlabLocs locsOneFailure)).1.length) ∧
    0 < (envOneFailure.listProjects (gitlabLocs locsOneFailure)).1.length ∧
    envOneFailure.scans 0 = .error .clone ∧
    ((scanAndGetReports envOneFailure locsOneFailure [1, 0]).fatal = false ∧
     (scanAndGetReports envOneFailure locsOneFailure [1, 0]).warn = true ∧
     (scanAndGetReports envOneFailure locsOneFailure [1, 0]).reports.length =
       (envOneFailure.listProjects (gitlabLocs locsOneFailure)).1.length ∧
     (scanAndGetReports envOneFailure locsOneFailure [1, 0]).reports.Perm
       ((List.range (envOneFailure.listProjects (gitlabLocs locsOneFailure)).1.length).map
         (fun i => reportFor
           ((envOneFailure.listProjects (gitlabLocs locsOneFailure)).1.getD i emptyProject)
           (envOneFailure.scans i))) ∧
     errorReport ((envOneFailure.listProjects (gitlabLocs locsOneFailure)).1.getD 0 emptyProject) ∈
       (scanAndGetReports envOneFailure locsOneFailure [1, 0]).reports ∧
     (errorReport ((envOneFailure.listProjects (gitlabLocs locsOneFailure)).1.getD 0
       emptyProject)).error = true ∧
     (errorReport ((envOneFailure.listProjects (gitlabLocs locsOneFailure)).1.getD 0
       emptyProject)).vulnerabilities = [] ∧
     (errorReport ((envOneFailure.listProjects (gitlabLocs locsOneFailure)).1.getD 0
       emptyProject)).isVulnerable = false ∧
     (∀ i r, i < (envOneFailure.listProjects (gitlabLocs locsOneFailure)).1.length →
       envOneFailure.scans i = .ok r →
       r ∈ (scanAndGetReports envOneFailure locsOneFailure [1, 0]).reports)) :=
  ⟨rfl, rfl, by decide, by decide, rfl,
   scanAndGetReports_failure_isolation envOneFailure locsOneFailure [1, 0] 0 .clone
     rfl rfl (by decide) (by decide) rfl⟩

/-! ## Patrol fatality conditions -/

theorem scanAndGetReports_fatal_eq (env : PatrolEnv) (locations : List ProjectLocation)
    (perm : List Nat) :
    (scanAndGetReports env locations perm).fatal = !env.mkdirOk := by
  unfold scanAndGetReports
  cases h : env.mkdirOk <;> rfl

theorem Patrol_fatal_eq (env : PatrolEnv) (args : PatrolArgs) (perm : List Nat) :
    (Patrol env args perm).fatal = (scanAndGetReports env args.locations perm).fatal := by
  unfold Patrol
  by_cases h : (scanAndGetReports env args.locations perm).fatal = true
  · rw [if_pos h, h]
  · have hf : (scanAndGetReports env args.locations perm).fatal = false := by
      revert h
      cases (scanAndGetReports env args.locations perm).fatal <;> simp
    rw [if_neg h, hf]
    by_cases h2 : (scanAndGetReports env args.locations perm).reports.length = 0
    · rw [if_pos h2]
    · rw [if_neg h2]

/-- C9 counterexample: a run in which the working directory is created but no
scan target resolves to any project returns a nil fatal error (and here even
a nil warning) with no reports, where the claim requires a fatal error in
that situation. -/
theorem patrol_no_targets_counterexample :
    (Patrol envNoTargets argsNoTargets []).fatal = false ∧
    (Patrol envNoTargets argsNoTargets []).reports = [] ∧
    (Patrol envNoTargets argsNoTargets []).warn = false :=
  ⟨rfl, rfl, rfl⟩

/-- C9 as amended: Patrol returns a fatal error exactly when the run
directory cannot be created, and then produces no reports; when no project
resolves at all the run instead returns no reports, the listing warning and a
nil fatal error. -/
theorem patrol_fatal_amended (env : PatrolEnv) (args : PatrolArgs) (perm : List Nat) :
    ((Patrol env args perm).fatal = true ↔ env.mkdirOk = false) ∧
    ((Patrol env args perm).fatal = true → (Patrol env args perm).reports = []) ∧
    (env.mkdirOk = true →
      (env.listProjects (gitlabLocs args.locations)).1 = [] →
      perm.Perm (List.range (env.listProjects (gitlabLocs args.locations)).1.length) →
      (Patrol env args perm).fatal = false ∧
      (Patrol env args perm).warn = (env.listProjects (gitlabLocs args.locations)).2 ∧
      (Patrol env args perm).reports = []) := by
  refine ⟨?_, ?_, ?_⟩
  · rw [Patrol_fatal_eq, scanAndGetReports_fatal_eq]
    cases h : env.mkdirOk <;> simp
  · intro hfat
    have hsf : (scanAndGetReports env args.locations perm).fatal = true := by
      rw [← Patrol_fatal_eq]
      exact hfat
    unfold Patrol
    rw [if_pos hsf]
  · intro hmk hempty hperm
    have hpnil : perm = [] := by
      rw [hempty] at hperm
      simp only [List.length_nil, List.range_zero] at hperm
      exact hperm.eq_nil
    subst hpnil
    have hs := scanAndGetReports_ok env args.locations [] hmk
    rw [hempty] at hs
    have hP : Patrol env args [] =
        ⟨(env.listProjects (gitlabLocs args.locations)).2 || false, false, []⟩ := by
      unfold Patrol
      rw [hs]
      rfl
    rw [hP]
    exact ⟨rfl, Bool.or_false _, rfl⟩

/-- Witness for the amended C9 at a run resolving no project. -/
theorem patrol_fatal_amended_witness :
    envNoTargets.mkdirOk = true ∧
    (envNoTargets.listProjects (gitlabLocs argsNoTargets.locations)).1 = [] ∧
    ([] : List Nat).Perm
      (List.range (envNoTargets.listProjects (gitlabLocs argsNoTargets.locations)).1.length) ∧
    ((Patrol envNoTargets argsNoTargets []).fatal = false ∧
     (Patrol envNoTargets argsNoTargets []).warn =
       (envNoTargets.listProjects (gitlabLocs argsNoTargets.locations)).2 ∧
     (Patrol envNoTargets argsNoTargets []).reports = []) :=
  ⟨rfl, rfl, by decide,
   (patrol_fatal_amended envNoTargets argsNoTargets []).2.2 rfl rfl (by decide)⟩

/-! ## Github issue close addresses the wrong repository -/

/-- C5, evaluated at the failing input: publishing a non-vulnerable report
for the acme/webapp project with an open tracked issue performs exactly one
state-changing call, but that call is addressed to owner acme and repository
acme (github.go line 91 passes project.GroupOrOwner twice), not to the
repository webapp of the project, so it is not a call closing the issue of
that project; the spec and the open-or-update path (github.go line 126, which
passes project.Name) show the intent. -/
theorem closeVulnerabilityIssue_wrong_repo_eval :
    publishReportToIssueTracker ghEnvOpenIssue reportAcmeClean "body" =
      [GhAction.updateIssue "acme" "acme" 7 none (some "closed")] ∧
    reportAcmeClean.project.name = "webapp" ∧
    reportAcmeClean.project.groupOrOwner = "acme" ∧
    ("acme" : String) ≠ "webapp" := by
  refine ⟨?_, rfl, rfl, by decide⟩
  rfl

end Sheriff
